import Mathlib

/-!
Shallow embedding of the kcshot editor core: geometry/colour primitives,
the Operation tagged union with its cairo-level execution (operations.rs),
the editor window's pixel read-back and event handlers (underlying.rs),
and the OperationStack lifecycle.  The OperationStack itself lives in the
repository's `editor/operations/stack.rs` / `data.rs`, which are not part
of the sources at hand; the definitions that depend on them are modelled
from the specification and say so in their doc comments.
-/

namespace Kcshot

/-- Planar point with f64 coordinates, modelled over ℝ (kcshot_data geometry). -/
structure Point where
  x : ℝ
  y : ℝ

/-- Rectangle with f64 origin and extent, modelled over ℝ. -/
structure Rectangle where
  x : ℝ
  y : ℝ
  w : ℝ
  h : ℝ

/-- Ellipse bounding-box parameters, modelled over ℝ. -/
structure Ellipse where
  x : ℝ
  y : ℝ
  w : ℝ
  h : ℝ

/-- RGBA colour with 8-bit channels (values are bytes, kept as ℕ). -/
structure Colour where
  red : ℕ
  green : ℕ
  blue : ℕ
  alpha : ℕ
deriving DecidableEq, Repr

instance : Sub Point where
  sub a b := ⟨a.x - b.x, a.y - b.y⟩

theorem Point.sub_def (a b : Point) : a - b = ⟨a.x - b.x, a.y - b.y⟩ := rfl

/-- Modelled from the spec: `Point` "supports subtraction and Euclidean distance"
(kcshot_data is not among the sources); `dist` is the Euclidean norm of the point
seen as a vector. -/
noncomputable def Point.dist (p : Point) : ℝ :=
  Real.sqrt (p.x ^ 2 + p.y ^ 2)

/-- The length of the arrowhead will be 1/10th of the length of the body
(constant `ARROWHEAD_LENGTH_RATIO` in operations.rs, renamed here). -/
noncomputable def arrowheadFraction : ℝ := 0.1

/-- How open/closed the arrowhead will be (`ARROWHEAD_APERTURE` in operations.rs). -/
noncomputable def arrowheadAperture : ℝ := Real.pi / 6

/-- Angle of the line from `s` to `e`: single-argument arctangent of dy/dx
(`get_line_angle` in operations.rs; deliberately not a full-quadrant atan2). -/
noncomputable def get_line_angle (s e : Point) : ℝ :=
  Real.arctan ((e - s).y / (e - s).x)

/-- Arrowhead length computed by `draw_arrow`: shaft length times the 1/10 ratio. -/
noncomputable def arrowLength (s e : Point) : ℝ :=
  (e - s).dist * arrowheadFraction

/-- Offset `x1` in `draw_arrow`. -/
noncomputable def arrow_x1 (s e : Point) : ℝ :=
  -arrowLength s e * Real.cos (get_line_angle s e - arrowheadAperture)

/-- Offset `x2` in `draw_arrow`. -/
noncomputable def arrow_x2 (s e : Point) : ℝ :=
  -arrowLength s e * Real.cos (get_line_angle s e + arrowheadAperture)

/-- Offset `y1` in `draw_arrow`. -/
noncomputable def arrow_y1 (s e : Point) : ℝ :=
  -arrowLength s e * Real.sin (get_line_angle s e - arrowheadAperture)

/-- Offset `y2` in `draw_arrow`. -/
noncomputable def arrow_y2 (s e : Point) : ℝ :=
  -arrowLength s e * Real.sin (get_line_angle s e + arrowheadAperture)

/-- First wing endpoint: `draw_arrow` line_to's the tip `e` and then
rel_move_to's by `(x1, y1)`, so the first wing segment runs from
`e + (x1, y1)` back to `e`. -/
noncomputable def arrowWingPoint1 (s e : Point) : Point :=
  ⟨e.x + arrow_x1 s e, e.y + arrow_y1 s e⟩

/-- Second wing endpoint: after returning to the tip `e`, `draw_arrow`
rel_line_to's by `(x2, y2)`, ending the second wing at `e + (x2, y2)`. -/
noncomputable def arrowWingPoint2 (s e : Point) : Point :=
  ⟨e.x + arrow_x2 s e, e.y + arrow_y2 s e⟩

/-- Pango font description, kept abstract (only carried around by `Text`). -/
structure FontDescription where
  description : String
deriving DecidableEq, Repr

/-- The tagged union of drawable actions (`Operation` in operations.rs). -/
inductive Operation where
  | Finish
  | Crop (rect : Rectangle)
  | WindowSelect (rect : Rectangle)
  | Blur (rect : Rectangle) (radius : ℝ)
  | Pixelate (rect : Rectangle)
  | DrawLine (s e : Point) (colour : Colour)
  | DrawRectangle (rect : Rectangle) (border fill : Colour)
  | Text (text : String) (colour : Colour) (font_description : FontDescription)
  | DrawArrow (s e : Point) (colour : Colour)
  | Highlight (rect : Rectangle)
  | DrawEllipse (ellipse : Ellipse) (border fill : Colour)

/-- Constant `HIGHLIGHT_COLOUR` in operations.rs: translucent yellow. -/
def HIGHLIGHT_COLOUR : Colour := ⟨255, 255, 0, 63⟩

/-- Constant `INVISIBLE` in operations.rs: zero-alpha black. -/
def INVISIBLE : Colour := ⟨0, 0, 0, 0⟩

/-- Cairo compositing operators used by the program. -/
inductive Operator where
  | source
  | over
deriving DecidableEq, Repr

/-- What the cairo context's source pattern is currently set to.  All
source-setting in the embedded code goes through `set_source_colour`,
`set_source_pixbuf` (blur repaint) or `set_source_surface` (base image). -/
inductive CairoSource where
  | initial
  | colour (c : Colour)
  | pixbuf
  | surface
deriving DecidableEq, Repr

/-- Diagonal affine transform (the program only translates and scales). -/
structure CairoMatrix where
  xx : ℝ
  yy : ℝ
  x0 : ℝ
  y0 : ℝ

/-- Identity transform, the state of a fresh cairo context. -/
def CairoMatrix.identity : CairoMatrix := ⟨1, 1, 0, 0⟩

def CairoMatrix.translateBy (m : CairoMatrix) (tx ty : ℝ) : CairoMatrix :=
  ⟨m.xx, m.yy, m.x0 + m.xx * tx, m.y0 + m.yy * ty⟩

def CairoMatrix.scaleBy (m : CairoMatrix) (sx sy : ℝ) : CairoMatrix :=
  ⟨m.xx * sx, m.yy * sy, m.x0, m.y0⟩

/-- The graphics state that cairo's save/restore stack saves and restores
(the parts the embedded code touches: source, operator, transform). -/
structure GState where
  source : CairoSource
  operator : Operator
  matrix : CairoMatrix

/-- Drawing-side-effect commands a cairo context records; used to state
which pixels-touching calls a code path performs and in which order. -/
inductive Cmd where
  | save
  | restore
  | setSourceColour (c : Colour)
  | setSourcePixbuf (x y : ℝ)
  | setOperator (op : Operator)
  | moveTo (x y : ℝ)
  | lineTo (x y : ℝ)
  | relMoveTo (dx dy : ℝ)
  | relLineTo (dx dy : ℝ)
  | rectPath (r : Rectangle)
  | arc (xc yc radius a1 a2 : ℝ)
  | translate (tx ty : ℝ)
  | scaleAxes (sx sy : ℝ)
  | stroke
  | fillPreserve
  | paint
  | showLayout

def Cmd.isPaint : Cmd → Bool
  | .paint => true
  | _ => false

/-- Cairo drawing context: current graphics state, the save/restore stack,
and the trace of commands issued so far. -/
structure Ctx where
  g : GState
  saved : List GState
  trace : List Cmd

/-- Errors of operations.rs (`Error` enum); `Cairo`, `Borrow` and `Image`
carry foreign payloads which the model does not need. -/
inductive Error where
  | Cairo
  | Borrow
  | Image
  | Pixbuf (rect : Rectangle)
  | PixelBytes

/-- Outcome of executing one code path: normal return, an `Err` return
carrying the context as left at the failure point, or a `todo!()` panic. -/
inductive Step where
  | ok (c : Ctx)
  | err (e : Error) (c : Ctx)
  | panics

def Ctx.save (c : Ctx) : Ctx :=
  { c with saved := c.g :: c.saved, trace := c.trace ++ [.save] }

/-- Restore pops the save stack; restoring with no matching save is a cairo
error (mapped to `Error::Cairo` by the `?` conversions in operations.rs). -/
def Ctx.restore (c : Ctx) : Step :=
  match c.saved with
  | [] => .err .Cairo c
  | g :: rest => .ok { g := g, saved := rest, trace := c.trace ++ [.restore] }

def Ctx.setSourceColour (c : Ctx) (col : Colour) : Ctx :=
  { c with g := { c.g with source := .colour col },
           trace := c.trace ++ [.setSourceColour col] }

def Ctx.setSourcePixbuf (c : Ctx) (x y : ℝ) : Ctx :=
  { c with g := { c.g with source := .pixbuf },
           trace := c.trace ++ [.setSourcePixbuf x y] }

def Ctx.setOperator (c : Ctx) (op : Operator) : Ctx :=
  { c with g := { c.g with operator := op },
           trace := c.trace ++ [.setOperator op] }

def Ctx.moveTo (c : Ctx) (x y : ℝ) : Ctx :=
  { c with trace := c.trace ++ [.moveTo x y] }

def Ctx.lineTo (c : Ctx) (x y : ℝ) : Ctx :=
  { c with trace := c.trace ++ [.lineTo x y] }

def Ctx.relMoveTo (c : Ctx) (dx dy : ℝ) : Ctx :=
  { c with trace := c.trace ++ [.relMoveTo dx dy] }

def Ctx.relLineTo (c : Ctx) (dx dy : ℝ) : Ctx :=
  { c with trace := c.trace ++ [.relLineTo dx dy] }

def Ctx.rectPath (c : Ctx) (r : Rectangle) : Ctx :=
  { c with trace := c.trace ++ [.rectPath r] }

def Ctx.arc (c : Ctx) (xc yc radius a1 a2 : ℝ) : Ctx :=
  { c with trace := c.trace ++ [.arc xc yc radius a1 a2] }

def Ctx.translate (c : Ctx) (tx ty : ℝ) : Ctx :=
  { c with g := { c.g with matrix := c.g.matrix.translateBy tx ty },
           trace := c.trace ++ [.translate tx ty] }

def Ctx.scaleAxes (c : Ctx) (sx sy : ℝ) : Ctx :=
  { c with g := { c.g with matrix := c.g.matrix.scaleBy sx sy },
           trace := c.trace ++ [.scaleAxes sx sy] }

def Ctx.stroke (c : Ctx) : Ctx :=
  { c with trace := c.trace ++ [.stroke] }

def Ctx.fillPreserve (c : Ctx) : Ctx :=
  { c with trace := c.trace ++ [.fillPreserve] }

def Ctx.paint (c : Ctx) : Ctx :=
  { c with trace := c.trace ++ [.paint] }

def Ctx.showLayout (c : Ctx) : Ctx :=
  { c with trace := c.trace ++ [.showLayout] }

/-- A cairo `ImageSurface` in `CAIRO_FORMAT_RGB24`: 4 bytes per pixel laid
out blue-green-red-unused (little-endian packed 32-bit, as documented in
the comment inside `Image::get_colour_at`), rows `stride` bytes apart. -/
structure Surface where
  width : ℕ
  height : ℕ
  stride : ℕ
  data : List ℕ

/-- A `gdk_pixbuf::Pixbuf` with 8 bits per sample; `bytes` is what
`pixel_bytes()` returns (`none` models its documented failure). -/
structure Pixbuf where
  n_channels : ℕ
  width : ℕ
  height : ℕ
  rowstride : ℕ
  bytes : Option (List ℕ)

/-- Per-pixel stride of a packed 8-bit-per-sample pixbuf: one byte per
channel, so it equals the channel count. -/
def Pixbuf.pixelStride (p : Pixbuf) : ℕ := p.n_channels

/-- The `image::flat::SampleLayout` fields. -/
structure SampleLayout where
  channels : ℕ
  channel_stride : ℕ
  width : ℕ
  width_stride : ℕ
  height : ℕ
  height_stride : ℕ

/-- The `SampleLayout` literal that `blur` in operations.rs builds for the
extracted pixbuf: channels and row stride are taken from the pixbuf,
the per-pixel stride is the constant 3. -/
def blurSampleLayout (p : Pixbuf) : SampleLayout :=
  { channels := p.n_channels
  , channel_stride := 1
  , width := p.width
  , width_stride := 3
  , height := p.height
  , height_stride := p.rowstride }

/-- Minimum buffer length a layout addresses, as checked by
`image::flat::FlatSamples::as_view` before handing out a view. -/
def SampleLayout.minLength (l : SampleLayout) : ℕ :=
  if l.width = 0 ∨ l.height = 0 then 0
  else (l.height - 1) * l.height_stride + (l.width - 1) * l.width_stride + l.channels

/-- Pixel bytes of the pixbuf extracted from an RGB24 surface: gdk converts
each blue-green-red-unused surface pixel into packed red-green-blue pixbuf
bytes, rows `rowstride` bytes apart. -/
def extractedBytes (surf : Surface) (x y w h rowstride : ℕ) : List ℕ :=
  ((List.range h).map fun j =>
    (List.range rowstride).map fun k =>
      if k < 3 * w then
        surf.data.getD ((y + j) * surf.stride + (x + k / 3) * 4 + (2 - k % 3)) 0
      else 0).flatten

/-- Model of `gdk::pixbuf_get_from_surface` on the program's RGB24 surfaces:
per the spec it fails (returns `none`) when the requested rectangle lies
outside the surface bounds; otherwise it yields an 8-bit RGB pixbuf with
3 channels (the surface has no alpha) and 4-byte-aligned rows. -/
def pixbuf_get_from_surface (surf : Surface) (x y w h : ℤ) : Option Pixbuf :=
  if 0 ≤ x ∧ 0 ≤ y ∧ 0 < w ∧ 0 < h ∧
      x + w ≤ (surf.width : ℤ) ∧ y + h ≤ (surf.height : ℤ) then
    let rowstride := 4 * ((3 * w.toNat + 3) / 4)
    some { n_channels := 3
         , width := w.toNat
         , height := h.toNat
         , rowstride := rowstride
         , bytes := some (extractedBytes surf x.toNat y.toNat w.toNat h.toNat rowstride) }
  else none

/-- Rust `as i32` on an f64: truncation toward zero (i32 saturation is
irrelevant at the magnitudes involved). -/
noncomputable def f64_as_i32 (r : ℝ) : ℤ :=
  if 0 ≤ r then ⌊r⌋ else ⌈r⌉

/-- Rust `as usize` on an f64: truncation toward zero with negatives
saturating to 0, which is exactly `Nat.floor` on ℝ. -/
noncomputable def f64_as_usize (r : ℝ) : ℕ := ⌊r⌋₊

/-- The free function `draw_line` in operations.rs: move to start, line to
end, set the colour, stroke.  Note it neither saves nor restores. -/
def draw_line (cairo : Ctx) (p1 p2 : Point) (colour : Colour) : Ctx :=
  (((cairo.moveTo p1.x p1.y).lineTo p2.x p2.y).setSourceColour colour).stroke

/-- The free function `draw_rectangle` in operations.rs: save, trace the
rectangle, fill with `fill` (preserving the path), stroke with `border`,
restore. -/
def draw_rectangle (cairo : Ctx) (rect : Rectangle) (border fill : Colour) : Step :=
  ((((cairo.save.rectPath rect).setSourceColour fill).fillPreserve.setSourceColour
      border).stroke).restore

/-- The free function `draw_arrow` in operations.rs: shaft start→end, then
the two wings via rel_move_to/rel_line_to, one stroke for all three
segments.  Note it neither saves nor restores. -/
noncomputable def draw_arrow (cairo : Ctx) (s e : Point) (colour : Colour) : Ctx :=
  ((((((cairo.moveTo s.x s.y).lineTo e.x e.y).relMoveTo (arrow_x1 s e)
      (arrow_y1 s e)).lineTo e.x e.y).relLineTo (arrow_x2 s e)
      (arrow_y2 s e)).setSourceColour colour).stroke

/-- The free function `blur` in operations.rs: wrap the pixbuf's bytes in a
`FlatSamples` with `blurSampleLayout`, view it as RGB8 (this checks the
layout), gaussian-blur it, and paint the blurred pixbuf back at `origin`
with the `Over` operator inside a save/restore pair.  The gaussian kernel
itself has no cairo-state effect and is not modelled. -/
def blur (cairo : Ctx) (pixbuf : Pixbuf) (origin : Point) : Step :=
  match pixbuf.bytes with
  | none => .err .PixelBytes cairo
  | some samples =>
    let layout := blurSampleLayout pixbuf
    if layout.channels = 3 ∧ layout.minLength ≤ samples.length then
      ((((cairo.save.setOperator .over).setSourcePixbuf origin.x
          origin.y).paint)).restore
    else .err .Image cairo

/-- `Operation::execute` from operations.rs, arm by arm.  `Finish`, `Crop`,
`WindowSelect` and `Pixelate` are `todo!()` and panic. -/
noncomputable def Operation.execute (op : Operation) (surface : Surface) (cairo : Ctx) : Step :=
  match op with
  | .Finish => .panics
  | .Crop _ => .panics
  | .WindowSelect _ => .panics
  | .Blur rect _radius =>
    let c := cairo.save
    match pixbuf_get_from_surface surface (f64_as_i32 rect.x) (f64_as_i32 rect.y)
        (f64_as_i32 rect.w) (f64_as_i32 rect.h) with
    | none => .err (.Pixbuf rect) c
    | some pixbuf =>
      match blur c pixbuf ⟨rect.x, rect.y⟩ with
      | .err e c2 => .err e c2
      | .panics => .panics
      | .ok c2 => c2.restore
  | .Pixelate _ => .panics
  | .DrawLine s e colour => .ok (draw_line cairo s e colour)
  | .DrawRectangle rect border fill => draw_rectangle cairo rect border fill
  | .Text _text colour _font =>
    (((cairo.save.moveTo 1000 420).setSourceColour colour).showLayout).restore
  | .DrawArrow s e colour => .ok (draw_arrow cairo s e colour)
  | .Highlight rect => draw_rectangle cairo rect INVISIBLE HIGHLIGHT_COLOUR
  | .DrawEllipse ellipse border fill =>
    let c := cairo.save
    let c := ((((c.save.translate ellipse.x ellipse.y).scaleAxes ellipse.w
        ellipse.h).arc 0.5 0.5 1 0 (2 * Real.pi)).setSourceColour fill).fillPreserve
    match c.restore with
    | .err e c2 => .err e c2
    | .panics => .panics
    | .ok c2 => (((c2.setSourceColour border).stroke)).restore

/-- Selectable drawing modes (`Tool` in operations.rs; the full list lives
in the absent stack.rs/toolbar, these are the ones the sources and spec
name). -/
inductive Tool where
  | Pencil
  | Line
  | Rect
  | Ellipse
  | Arrow
  | Text
  | Blur
  | Pixelate
  | Highlight
  | CropAndSave
  | WindowSelect
deriving DecidableEq, Repr

/-- Modelled from the spec: each tool maps 1:1 to the `Operation` shape it
produces, "anchored at `point` (e.g., a rectangle tool yields
`DrawRectangle` with zero-size rect at `point`)".  Style fields the spec
leaves to the toolbar are taken as a fixed opaque colour. -/
def Tool.operationAt (t : Tool) (p : Point) : Operation :=
  let black : Colour := ⟨0, 0, 0, 255⟩
  match t with
  | .Pencil => .DrawLine p p black
  | .Line => .DrawLine p p black
  | .Rect => .DrawRectangle ⟨p.x, p.y, 0, 0⟩ black black
  | .Ellipse => .DrawEllipse ⟨p.x, p.y, 0, 0⟩ black black
  | .Arrow => .DrawArrow p p black
  | .Text => .Text (String.mk []) black ⟨String.mk []⟩
  | .Blur => .Blur ⟨p.x, p.y, 0, 0⟩ 5
  | .Pixelate => .Pixelate ⟨p.x, p.y, 0, 0⟩
  | .Highlight => .Highlight ⟨p.x, p.y, 0, 0⟩
  | .CropAndSave => .Crop ⟨p.x, p.y, 0, 0⟩
  | .WindowSelect => .WindowSelect ⟨p.x, p.y, 0, 0⟩

/-- Modelled from the spec: the `OperationStack` owns "the committed
sequence, the redo buffer, the current in-progress operation, current
tool/selection-mode, ignore-windows flag, detected window list, and screen
bounds" (stack.rs is absent from the sources; `screen_dimensions` is the
field name its src callers use).  `committed` is ordered oldest first,
matching commit-order replay. -/
structure OperationStack where
  committed : List Operation
  redo_buffer : List Operation
  in_progress : Option Operation
  current_tool : Tool
  ignore_windows : Bool
  windows : List Rectangle
  screen_dimensions : Rectangle

/-- Modelled from the spec: committing appends the operation to the
committed sequence, "clears the redo buffer" and returns to `Idle`
(no in-progress operation). -/
def OperationStack.commit (s : OperationStack) (op : Operation) : OperationStack :=
  { s with committed := s.committed ++ [op]
         , redo_buffer := []
         , in_progress := none }

/-- Modelled from the spec: "`undo` moves exactly one entry, last-committed
first, from the committed sequence to the redo buffer"; a no-op when the
committed sequence is empty. -/
def OperationStack.undo (s : OperationStack) : OperationStack :=
  match s.committed.getLast? with
  | none => s
  | some op => { s with committed := s.committed.dropLast
                      , redo_buffer := op :: s.redo_buffer }

/-- Modelled from the spec: "`redo` reverses that exactly" — it moves one
entry from the redo buffer back to the end of the committed sequence; a
no-op when the redo buffer is empty. -/
def OperationStack.redo (s : OperationStack) : OperationStack :=
  match s.redo_buffer with
  | [] => s
  | op :: rest => { s with committed := s.committed ++ [op]
                         , redo_buffer := rest }

/-- Modelled from the spec: `start_operation_at(point)` "constructs a new
`Operation` of the shape dictated by the current tool, anchored at
`point`; transitions to `Drawing`". -/
def OperationStack.start_operation_at (s : OperationStack) (p : Point) : OperationStack :=
  { s with in_progress := some (s.current_tool.operationAt p) }

/-- Rectangle of the first committed `Crop` operation, if any. -/
def OperationStack.committedCropRect (s : OperationStack) : Option Rectangle :=
  s.committed.findSome? fun op =>
    match op with
    | .Crop r => some r
    | _ => none

/-- Point-in-rectangle test used for detected-window lookup. -/
def Rectangle.containsPoint (r : Rectangle) (p : Point) : Prop :=
  r.x ≤ p.x ∧ p.x ≤ r.x + r.w ∧ r.y ≤ p.y ∧ p.y ≤ r.y + r.h

open scoped Classical

/-- First rectangle of the detected-window list (in the order provided)
containing the point, if any (point-in-window tests on ℝ are classical). -/
noncomputable def firstWindowContaining (ws : List Rectangle) (p : Point) :
    Option Rectangle :=
  match ws with
  | [] => none
  | w :: rest =>
    if w.containsPoint p then some w else firstWindowContaining rest p

/-- Modelled from the spec: "`crop_region(point)`: resolution order — (1)
bounds of a committed `Crop` operation if one exists, else (2) the
detected window containing `point` if any, else (3) the full screen
bounds fixed at construction." -/
noncomputable def OperationStack.crop_region (s : OperationStack) (p : Point) :
    Rectangle :=
  match s.committedCropRect with
  | some r => r
  | none =>
    match firstWindowContaining s.windows p with
    | some w => w
    | none => s.screen_dimensions

/-- Modelled from the spec: the render pipeline's replay order — every
committed operation in commit order, then, if rendering a live frame, the
in-progress operation last (`OperationStack::execute` lives in the absent
stack.rs). -/
def OperationStack.renderList (s : OperationStack) (is_in_draw_event : Bool) :
    List Operation :=
  s.committed ++ (if is_in_draw_event then s.in_progress.toList else [])

/-- The `Image` struct of underlying.rs: composited surface plus the
operation stack. -/
structure Image where
  surface : Surface
  operation_stack : OperationStack

/-- `Image::get_colour_at` from underlying.rs: index `x*4 + y*stride` into
the surface's backing buffer (RGB24 pixels are 4 bytes), read the bytes in
blue-green-red order, return a fully-opaque colour.  The 255 defaults are
the initial values of the Rust locals. -/
noncomputable def Image.get_colour_at (img : Image) (x y : ℝ) : Colour :=
  let xn := f64_as_usize x
  let yn := f64_as_usize y
  let idx := xn * 4 + yn * img.surface.stride
  { red := img.surface.data.getD (idx + 2) 255
  , green := img.surface.data.getD (idx + 1) 255
  , blue := img.surface.data.getD idx 255
  , alpha := 255 }

/-- Modelled from the cairo RGB24 format documentation quoted inside
`Image::get_colour_at`: painting an opaque colour onto the pixel at
`(x, y)` stores its blue, green and red bytes at offsets 0, 1, 2 of the
4-byte pixel (the fourth byte is unused). -/
def Surface.paintPixel (s : Surface) (x y : ℕ) (c : Colour) : Surface :=
  let idx := x * 4 + y * s.stride
  { s with data := ((s.data.set idx c.blue).set (idx + 1) c.green).set (idx + 2) c.red }

/-- One step of the `do_draw` render pass, at the granularity claims C3
talks about: the base-image commands plus whole-operation executions. -/
inductive RenderStep where
  | setOperator (op : Operator)
  | setSourceSurface
  | paintBase
  | execOp (op : Operation)

/-- `EditorWindow::do_draw` from underlying.rs: set the `Source` operator,
set the base surface as source, paint, switch back to `Over`, then hand
over to `OperationStack::execute` (modelled by `renderList`). -/
def do_draw (image : Image) (is_in_draw_event : Bool) : List RenderStep :=
  [.setOperator .source, .setSourceSurface, .paintBase, .setOperator .over]
    ++ (image.operation_stack.renderList is_in_draw_event).map .execOp

/-- Operator in effect when `paintBase` is reached (cairo contexts start
with `Over`); `none` if the trace never paints the base. -/
def operatorAtBasePaint : List RenderStep → Operator → Option Operator
  | [], _ => none
  | .setOperator op :: rest, _ => operatorAtBasePaint rest op
  | .paintBase :: _, cur => some cur
  | .setSourceSurface :: rest, cur => operatorAtBasePaint rest cur
  | .execOp _ :: rest, cur => operatorAtBasePaint rest cur

/-- Project the operation out of an `execOp` step. -/
def RenderStep.asExec : RenderStep → Option Operation
  | .execOp op => some op
  | _ => none

/-- The state of `EditorWindow` that the primary-click handler touches:
the pending colour-pick request (`colour_tx`, the sender handle modelled
as an identifier) and the image. -/
structure EditorWindowModel where
  colour_tx : Option ℕ
  image : Image

/-- Observable effect of one primary-button press. -/
inductive ClickEffect where
  | sentColour (tx : ℕ) (c : Colour)
  | startedOperation (p : Point)

/-- The `connect_pressed` closure of underlying.rs for the primary button:
`colour_tx.take()` — if a request was pending, sample the colour under
the cursor and send it through the taken sender (pending state is now
cleared, the stack untouched); otherwise start a new operation at the
click point. -/
noncomputable def primary_click_pressed (w : EditorWindowModel) (x y : ℝ) :
    EditorWindowModel × List ClickEffect :=
  match w.colour_tx with
  | some tx =>
    ({ w with colour_tx := none }, [.sentColour tx (w.image.get_colour_at x y)])
  | none =>
    ({ w with image := { w.image with
        operation_stack := w.image.operation_stack.start_operation_at ⟨x, y⟩ } },
     [.startedOperation ⟨x, y⟩])

/-- Graphics state after a successfully returning execution, if any. -/
def Step.gAfter : Step → Option GState
  | .ok c => some c.g
  | _ => none

/-- Save stack after a successfully returning execution, if any. -/
def Step.savedAfter : Step → Option (List GState)
  | .ok c => some c.saved
  | _ => none

/-- Source pattern after a successfully returning execution, if any. -/
def Step.sourceAfter : Step → Option CairoSource
  | .ok c => some c.g.source
  | _ => none

/-- A step restores the given state whenever it returns successfully. -/
def Step.restoresState (st : Step) (g : GState) (saved : List GState) : Prop :=
  match st with
  | .ok c => c.g = g ∧ c.saved = saved
  | _ => True

/-- The layout `blur` builds mirrors the pixbuf it was extracted into:
channel count, per-pixel stride and per-row stride agree. -/
def mirrorsBlurLayout : Option Pixbuf → Prop
  | none => True
  | some p =>
    (blurSampleLayout p).channels = p.n_channels
    ∧ (blurSampleLayout p).width_stride = p.pixelStride
    ∧ (blurSampleLayout p).height_stride = p.rowstride

/-- Empty surface used as a concrete input. -/
def surf0 : Surface := ⟨0, 0, 0, []⟩

/-- Fresh cairo context used as a concrete input. -/
def ctx0 : Ctx := ⟨⟨.initial, .over, .identity⟩, [], []⟩

/-- A freshly constructed stack with no history. -/
def sampleStack : OperationStack :=
  { committed := []
  , redo_buffer := []
  , in_progress := none
  , current_tool := .Pencil
  , ignore_windows := false
  , windows := []
  , screen_dimensions := ⟨0, 0, 0, 0⟩ }

/-- A stack holding one committed `Crop` operation. -/
def cropStack : OperationStack :=
  { sampleStack with committed := [.Crop ⟨1, 2, 3, 4⟩] }

/-- A 2x2 RGB24 surface (stride 8) whose pixels are all zero. -/
def surf1 : Surface := ⟨2, 2, 8, List.replicate 16 0⟩

/-- Concrete editor image over `surf1`. -/
def img1 : Image := ⟨surf1, sampleStack⟩

/-- Editor window with a pending colour-pick request (handle 7). -/
def editor1 : EditorWindowModel := ⟨some 7, img1⟩

/-- C10: for each of the Operation variants Finish, Crop, WindowSelect and
Pixelate, `execute` hits `todo!()` and panics instead of returning a
value, so these variants must never reach the render pipeline. -/
theorem c10_placeholder_variants_panic :
    ∀ (surface : Surface) (cairo : Ctx) (r : Rectangle),
      Operation.execute .Finish surface cairo = .panics
      ∧ Operation.execute (.Crop r) surface cairo = .panics
      ∧ Operation.execute (.WindowSelect r) surface cairo = .panics
      ∧ Operation.execute (.Pixelate r) surface cairo = .panics := by
  intro surface cairo r
  exact ⟨rfl, rfl, rfl, rfl⟩

/-- C5: for every pixbuf the blur path extracts from the (RGB24) surface,
the `SampleLayout` built for the linear pixel buffer mirrors that pixbuf
exactly: channel count, per-pixel (width) stride and per-row stride
(including padding) all agree. -/
theorem c5_blur_layout_mirrors_pixbuf :
    ∀ (surf : Surface) (x y w h : ℤ),
      mirrorsBlurLayout (pixbuf_get_from_surface surf x y w h) := by
  intro surf x y w h
  unfold pixbuf_get_from_surface
  split
  · exact ⟨rfl, rfl, rfl⟩
  · trivial

/-- Projecting the operations back out of a mapped trace is the identity. -/
theorem filterMap_asExec_map (l : List Operation) :
    l.filterMap (RenderStep.asExec ∘ RenderStep.execOp) = l := by
  induction l with
  | nil => rfl
  | cons a t ih => simp [List.filterMap_cons, RenderStep.asExec, Function.comp, ih]

/-- C3: every render pass first paints the base captured image with the
full-replace `Source` operator, switches to `Over`, then executes the
committed operations in commit order, and appends the in-progress
operation exactly when rendering a live frame; the order is the committed
order, never permuted. -/
theorem c3_render_pass_order :
    ∀ (image : Image),
      ((do_draw image true).take 4
          = [.setOperator .source, .setSourceSurface, .paintBase, .setOperator .over]
        ∧ (do_draw image false).take 4
          = [.setOperator .source, .setSourceSurface, .paintBase, .setOperator .over])
      ∧ (operatorAtBasePaint (do_draw image true) .over = some .source
        ∧ operatorAtBasePaint (do_draw image false) .over = some .source)
      ∧ (do_draw image true).filterMap RenderStep.asExec
          = image.operation_stack.committed ++ image.operation_stack.in_progress.toList
      ∧ (do_draw image false).filterMap RenderStep.asExec
          = image.operation_stack.committed := by
  intro image
  refine ⟨⟨rfl, rfl⟩, ⟨rfl, rfl⟩, ?_, ?_⟩
  · simp [do_draw, OperationStack.renderList, List.filterMap_cons,
      RenderStep.asExec, List.filterMap_append, List.map_append,
      filterMap_asExec_map]
  · simp [do_draw, OperationStack.renderList, List.filterMap_cons,
      RenderStep.asExec, filterMap_asExec_map]

/-- C7 (amended): Blur, DrawRectangle, Text, Highlight and DrawEllipse
save and restore the graphics-context state around their own drawing,
but DrawLine and DrawArrow perform no save/restore and leave the context's
source set to their stroke colour after executing. -/
theorem c7_amended_state_isolation :
    ∀ (surface : Surface) (cairo : Ctx),
      (∀ r b f, (Operation.execute (.DrawRectangle r b f) surface cairo).gAfter = some cairo.g
        ∧ (Operation.execute (.DrawRectangle r b f) surface cairo).savedAfter
            = some cairo.saved)
      ∧ (∀ t col fd, (Operation.execute (.Text t col fd) surface cairo).gAfter = some cairo.g
        ∧ (Operation.execute (.Text t col fd) surface cairo).savedAfter = some cairo.saved)
      ∧ (∀ r, (Operation.execute (.Highlight r) surface cairo).gAfter = some cairo.g
        ∧ (Operation.execute (.Highlight r) surface cairo).savedAfter = some cairo.saved)
      ∧ (∀ el b f, (Operation.execute (.DrawEllipse el b f) surface cairo).gAfter = some cairo.g
        ∧ (Operation.execute (.DrawEllipse el b f) surface cairo).savedAfter
            = some cairo.saved)
      ∧ (∀ r rad, (Operation.execute (.Blur r rad) surface cairo).restoresState
            cairo.g cairo.saved)
      ∧ (∀ s e col, (Operation.execute (.DrawLine s e col) surface cairo).sourceAfter
            = some (.colour col))
      ∧ (∀ s e col, (Operation.execute (.DrawArrow s e col) surface cairo).sourceAfter
            = some (.colour col)) := by
  intro surface cairo
  refine ⟨fun r b f => ⟨rfl, rfl⟩, fun t col fd => ⟨rfl, rfl⟩, fun r => ⟨rfl, rfl⟩,
    fun el b f => ⟨rfl, rfl⟩, ?_, fun s e col => rfl, fun s e col => rfl⟩
  intro r rad
  rcases hpx : pixbuf_get_from_surface surface (f64_as_i32 r.x) (f64_as_i32 r.y)
      (f64_as_i32 r.w) (f64_as_i32 r.h) with _ | p
  · simp [Operation.execute, hpx, Step.restoresState]
  · rcases hb : p.bytes with _ | samples
    · simp [Operation.execute, blur, hpx, hb, Step.restoresState]
    · by_cases hc : (blurSampleLayout p).channels = 3
          ∧ (blurSampleLayout p).minLength ≤ samples.length
      · simp [Operation.execute, blur, hpx, hb, hc, Ctx.save, Ctx.setOperator,
          Ctx.setSourcePixbuf, Ctx.paint, Ctx.restore, Step.restoresState]
      · simp [Operation.execute, blur, hpx, hb, hc, Step.restoresState]

/-- C7 counterexample: executing a DrawLine leaves the source colour it
set, so the claim that every variant restores the context state it found
is false at this input. -/
theorem c7_counterexample_line_leaks_source :
    (Operation.execute (.DrawLine ⟨0, 0⟩ ⟨1, 1⟩ ⟨255, 255, 255, 255⟩) surf0 ctx0).sourceAfter
      ≠ some ctx0.g.source := by
  intro h
  simp [Operation.execute, draw_line, Ctx.moveTo, Ctx.lineTo, Ctx.setSourceColour,
    Ctx.stroke, Step.sourceAfter, ctx0] at h

/-- C9: when the blur region cannot be extracted, `execute` returns the
dedicated `Pixbuf`-with-rectangle error (or `PixelBytes` when the pixel
bytes are unreadable) instead of panicking, and performs no repaint — the
trace gains no paint command. -/
theorem c9_blur_failure_is_an_error :
    ∀ (surface : Surface) (rect : Rectangle) (radius : ℝ) (cairo : Ctx),
      (pixbuf_get_from_surface surface (f64_as_i32 rect.x) (f64_as_i32 rect.y)
          (f64_as_i32 rect.w) (f64_as_i32 rect.h) = none →
        Operation.execute (.Blur rect radius) surface cairo = .err (.Pixbuf rect) cairo.save
        ∧ (cairo.save).trace.countP Cmd.isPaint = cairo.trace.countP Cmd.isPaint)
      ∧ (∀ p, pixbuf_get_from_surface surface (f64_as_i32 rect.x) (f64_as_i32 rect.y)
          (f64_as_i32 rect.w) (f64_as_i32 rect.h) = some p → p.bytes = none →
        Operation.execute (.Blur rect radius) surface cairo = .err .PixelBytes cairo.save
        ∧ (cairo.save).trace.countP Cmd.isPaint = cairo.trace.countP Cmd.isPaint)
      ∧ Operation.execute (.Blur rect radius) surface cairo ≠ .panics := by
  intro surface rect radius cairo
  have hcount : (cairo.save).trace.countP Cmd.isPaint = cairo.trace.countP Cmd.isPaint := by
    simp [Ctx.save, List.countP_append, List.countP_cons, Cmd.isPaint]
  refine ⟨fun h => ⟨by simp [Operation.execute, h], hcount⟩, fun p hp hb =>
    ⟨by simp [Operation.execute, blur, hp, hb], hcount⟩, ?_⟩
  rcases hpx : pixbuf_get_from_surface surface (f64_as_i32 rect.x) (f64_as_i32 rect.y)
      (f64_as_i32 rect.w) (f64_as_i32 rect.h) with _ | p
  · simp [Operation.execute, hpx]
  · rcases hb : p.bytes with _ | samples
    · simp [Operation.execute, blur, hpx, hb]
    · by_cases hc : (blurSampleLayout p).channels = 3
          ∧ (blurSampleLayout p).minLength ≤ samples.length
      · simp [Operation.execute, blur, hpx, hb, hc, Ctx.save, Ctx.setOperator,
          Ctx.setSourcePixbuf, Ctx.paint, Ctx.restore]
      · simp [Operation.execute, blur, hpx, hb, hc]

/-- C9 witness: a 4x4 blur region on the empty surface fails extraction
and produces exactly the `Pixbuf` error, painting nothing. -/
theorem c9_witness :
    pixbuf_get_from_surface surf0 (f64_as_i32 (0 : ℝ)) (f64_as_i32 (0 : ℝ))
        (f64_as_i32 (4 : ℝ)) (f64_as_i32 (4 : ℝ)) = none
    ∧ (Operation.execute (.Blur ⟨0, 0, 4, 4⟩ 1) surf0 ctx0
          = .err (.Pixbuf ⟨0, 0, 4, 4⟩) ctx0.save
      ∧ (ctx0.save).trace.countP Cmd.isPaint = ctx0.trace.countP Cmd.isPaint) := by
  have hnone : pixbuf_get_from_surface surf0 (f64_as_i32 (0 : ℝ)) (f64_as_i32 (0 : ℝ))
      (f64_as_i32 (4 : ℝ)) (f64_as_i32 (4 : ℝ)) = none := by
    simp [pixbuf_get_from_surface, f64_as_i32, surf0]
  exact ⟨hnone, (c9_blur_failure_is_an_error surf0 ⟨0, 0, 4, 4⟩ 1 ctx0).1 hnone⟩

/-- With a non-empty committed sequence, `undo` drops the last entry. -/
theorem OperationStack.undo_committed (s : OperationStack) (h : s.committed ≠ []) :
    s.undo.committed = s.committed.dropLast := by
  have hl : s.committed.getLast? = some (s.committed.getLast h) :=
    List.getLast?_eq_getLast _ h
  simp [OperationStack.undo, hl]

/-- Redo exactly reverses undo on any stack with committed history. -/
theorem OperationStack.redo_undo (s : OperationStack) (h : s.committed ≠ []) :
    s.undo.redo = s := by
  have hl : s.committed.getLast? = some (s.committed.getLast h) :=
    List.getLast?_eq_getLast _ h
  rcases s with ⟨c, rb, ip, tool, ig, ws, sd⟩
  simp only [OperationStack.undo, OperationStack.redo, hl]
  simp [List.dropLast_append_getLast h]

/-- M undos followed by M redos restore the stack exactly, provided M is
at most the committed length. -/
theorem OperationStack.redo_undo_iterate (M : ℕ) :
    ∀ s : OperationStack, M ≤ s.committed.length →
      OperationStack.redo^[M] (OperationStack.undo^[M] s) = s := by
  induction M with
  | zero => intro s _; rfl
  | succ M ih =>
    intro s h
    have hne : s.committed ≠ [] := by
      intro he
      rw [he] at h
      simp at h
    have hlen : M ≤ s.undo.committed.length := by
      rw [OperationStack.undo_committed s hne, List.length_dropLast]
      omega
    have key : OperationStack.undo^[M + 1] s = OperationStack.undo^[M] s.undo :=
      Function.iterate_succ_apply _ _ _
    have key2 : OperationStack.redo^[M + 1] (OperationStack.undo^[M] s.undo)
        = (OperationStack.redo^[M] (OperationStack.undo^[M] s.undo)).redo :=
      Function.iterate_succ_apply' _ _ _
    rw [key, key2, ih s.undo hlen, OperationStack.redo_undo s hne]

/-- Folding commits appends the operations to the committed sequence. -/
theorem OperationStack.foldl_commit_committed (ops : List Operation) :
    ∀ s : OperationStack, (ops.foldl OperationStack.commit s).committed
      = s.committed ++ ops := by
  induction ops with
  | nil => intro s; simp
  | cons op t ih =>
    intro s
    rw [List.foldl_cons, ih]
    simp [OperationStack.commit]

/-- C1: committing N operations, undoing M ≤ N of them and redoing M
leaves the committed sequence equal to the original N operations in
order; each undo moves exactly the last-committed entry to the redo
buffer and each redo moves exactly one entry back. -/
theorem c1_undo_redo_round_trip :
    ∀ (s : OperationStack) (ops : List Operation) (M : ℕ), M ≤ ops.length →
      (OperationStack.redo^[M] (OperationStack.undo^[M]
          (ops.foldl OperationStack.commit s))).committed = s.committed ++ ops
      ∧ (∀ (t : OperationStack) (op : Operation), t.committed.getLast? = some op →
          t.undo = { t with committed := t.committed.dropLast
                          , redo_buffer := op :: t.redo_buffer })
      ∧ (∀ (t : OperationStack) (op : Operation) (rest : List Operation),
          t.redo_buffer = op :: rest →
          t.redo = { t with committed := t.committed ++ [op], redo_buffer := rest }) := by
  intro s ops M hM
  refine ⟨?_, fun t op hop => by simp [OperationStack.undo, hop],
    fun t op rest hr => by simp [OperationStack.redo, hr]⟩
  have hfold := OperationStack.foldl_commit_committed ops s
  have hlen : M ≤ (ops.foldl OperationStack.commit s).committed.length := by
    rw [hfold, List.length_append]
    omega
  rw [OperationStack.redo_undo_iterate M _ hlen, hfold]

/-- C1 witness: one commit, one undo, one redo on a fresh stack restores
the single committed operation. -/
theorem c1_witness :
    1 ≤ [Operation.Finish].length
    ∧ (OperationStack.redo^[1] (OperationStack.undo^[1]
        ([Operation.Finish].foldl OperationStack.commit sampleStack))).committed
      = sampleStack.committed ++ [Operation.Finish] := by
  exact ⟨by decide, (c1_undo_redo_round_trip sampleStack [.Finish] 1 (by decide)).1⟩

/-- C2: `crop_region` resolves in priority order — a committed `Crop`
rectangle if one exists, else the first detected window containing the
point, else the full screen bounds fixed at construction. -/
theorem c2_crop_region_priority :
    ∀ (s : OperationStack) (p : Point),
      (∀ r, s.committedCropRect = some r → s.crop_region p = r)
      ∧ (s.committedCropRect = none →
          ∀ w, firstWindowContaining s.windows p = some w → s.crop_region p = w)
      ∧ (s.committedCropRect = none → firstWindowContaining s.windows p = none →
          s.crop_region p = s.screen_dimensions) := by
  intro s p
  refine ⟨fun r hr => ?_, fun hc w hw => ?_, fun hc hw => ?_⟩
  · simp [OperationStack.crop_region, hr]
  · simp [OperationStack.crop_region, hc, hw]
  · simp [OperationStack.crop_region, hc, hw]

/-- C2 witness: with a committed `Crop` of rectangle (1,2,3,4), the crop
region is that rectangle. -/
theorem c2_witness :
    cropStack.committedCropRect = some ⟨1, 2, 3, 4⟩
    ∧ cropStack.crop_region ⟨0, 0⟩ = ⟨1, 2, 3, 4⟩ := by
  have h : cropStack.committedCropRect = some ⟨1, 2, 3, 4⟩ := rfl
  exact ⟨h, (c2_crop_region_priority cropStack ⟨0, 0⟩).1 ⟨1, 2, 3, 4⟩ h⟩

/-- C6: `get_colour_at` always returns a fully-opaque colour, and for
in-bounds coordinates it reads the bytes at offset `x*4 + y*stride` of
the backing buffer in blue-green-red order; in particular it returns
exactly the colour previously painted at that pixel. -/
theorem c6_get_colour_at_reads_bgr :
    ∀ (s : Surface) (stack : OperationStack) (x y : ℕ) (c : Colour),
      (∀ a b : ℝ, ((Image.mk s stack).get_colour_at a b).alpha = 255)
      ∧ (x * 4 + y * s.stride + 2 < s.data.length →
          (Image.mk s stack).get_colour_at (x : ℝ) (y : ℝ)
            = ⟨s.data.getD (x * 4 + y * s.stride + 2) 255,
               s.data.getD (x * 4 + y * s.stride + 1) 255,
               s.data.getD (x * 4 + y * s.stride) 255, 255⟩
          ∧ (Image.mk (s.paintPixel x y c) stack).get_colour_at (x : ℝ) (y : ℝ)
            = ⟨c.red, c.green, c.blue, 255⟩) := by
  intro s stack x y c
  refine ⟨fun a b => rfl, fun h => ⟨?_, ?_⟩⟩
  · simp [Image.get_colour_at, f64_as_usize, Nat.floor_natCast]
  · have hb : x * 4 + y * s.stride < s.data.length := by omega
    have e_red : (((s.data.set (x * 4 + y * s.stride) c.blue).set
          (x * 4 + y * s.stride + 1) c.green).set
          (x * 4 + y * s.stride + 2) c.red)[x * 4 + y * s.stride + 2]? = some c.red :=
      List.getElem?_set_self (by simpa using h)
    have e_green : (((s.data.set (x * 4 + y * s.stride) c.blue).set
          (x * 4 + y * s.stride + 1) c.green).set
          (x * 4 + y * s.stride + 2) c.red)[x * 4 + y * s.stride + 1]? = some c.green := by
      rw [List.getElem?_set_ne (by omega),
        List.getElem?_set_self (by simpa using (by omega : x * 4 + y * s.stride + 1 < s.data.length))]
    have e_blue : (((s.data.set (x * 4 + y * s.stride) c.blue).set
          (x * 4 + y * s.stride + 1) c.green).set
          (x * 4 + y * s.stride + 2) c.red)[x * 4 + y * s.stride]? = some c.blue := by
      rw [List.getElem?_set_ne (by omega), List.getElem?_set_ne (by omega),
        List.getElem?_set_self hb]
    simp [Image.get_colour_at, Surface.paintPixel, f64_as_usize, Nat.floor_natCast,
      e_red, e_green, e_blue]

/-- C6 witness: painting (10,20,30,255) at pixel (1,1) of the concrete
2x2 surface and reading it back returns (10,20,30,255). -/
theorem c6_witness :
    1 * 4 + 1 * surf1.stride + 2 < surf1.data.length
    ∧ (Image.mk (surf1.paintPixel 1 1 ⟨10, 20, 30, 255⟩) sampleStack).get_colour_at
        ((1 : ℕ) : ℝ) ((1 : ℕ) : ℝ) = ⟨10, 20, 30, 255⟩ := by
  have h : 1 * 4 + 1 * surf1.stride + 2 < surf1.data.length := by decide
  exact ⟨h, ((c6_get_colour_at_reads_bgr surf1 sampleStack 1 1 ⟨10, 20, 30, 255⟩).2 h).2⟩

/-- C8: with a colour-pick request pending, the next primary click does
not start an operation — it samples the colour under the cursor, delivers
it exactly once to the pending request and clears the pending state; the
click after that starts an operation normally. -/
theorem c8_colour_pick_intercepts_click :
    ∀ (w : EditorWindowModel) (x y : ℝ) (tx : ℕ), w.colour_tx = some tx →
      (primary_click_pressed w x y).2 = [.sentColour tx (w.image.get_colour_at x y)]
      ∧ (primary_click_pressed w x y).1.colour_tx = none
      ∧ (primary_click_pressed w x y).1.image = w.image
      ∧ (primary_click_pressed (primary_click_pressed w x y).1 x y).2
          = [.startedOperation ⟨x, y⟩]
      ∧ (primary_click_pressed
            (primary_click_pressed w x y).1 x y).1.image.operation_stack.in_progress
          = some (w.image.operation_stack.current_tool.operationAt ⟨x, y⟩) := by
  intro w x y tx h
  refine ⟨by simp [primary_click_pressed, h], by simp [primary_click_pressed, h],
    by simp [primary_click_pressed, h], ?_, ?_⟩
  · simp [primary_click_pressed, h]
  · simp [primary_click_pressed, h, OperationStack.start_operation_at]

/-- C8 witness: the concrete editor with pending request 7 delivers the
sampled colour once, clears the request, and the following click starts
an operation. -/
theorem c8_witness :
    editor1.colour_tx = some 7
    ∧ ((primary_click_pressed editor1 1 1).2
          = [.sentColour 7 (editor1.image.get_colour_at 1 1)]
      ∧ (primary_click_pressed editor1 1 1).1.colour_tx = none
      ∧ (primary_click_pressed editor1 1 1).1.image = editor1.image
      ∧ (primary_click_pressed (primary_click_pressed editor1 1 1).1 1 1).2
          = [.startedOperation ⟨1, 1⟩]
      ∧ (primary_click_pressed
            (primary_click_pressed editor1 1 1).1 1 1).1.image.operation_stack.in_progress
          = some (editor1.image.operation_stack.current_tool.operationAt ⟨1, 1⟩)) :=
  ⟨rfl, c8_colour_pick_intercepts_click editor1 1 1 7 rfl⟩

/-- C4: the arrowhead length is exactly one tenth of the shaft length
(10 for the shaft (0,0)→(100,0)), the wing endpoints are the tip offset
by the negated vector arrow_length·(cos, sin) of (angle ± π/6), and the
angle is the single-argument arctangent of dy/dx — in particular a
leftward shaft gets angle 0, not π, betraying the absence of atan2. -/
theorem c4_arrow_geometry :
    (∀ s e : Point, s ≠ e →
      arrowLength s e = 0.1 * (e - s).dist
      ∧ get_line_angle s e = Real.arctan ((e.y - s.y) / (e.x - s.x))
      ∧ arrowWingPoint1 s e
        = ⟨e.x - arrowLength s e * Real.cos (get_line_angle s e - Real.pi / 6),
           e.y - arrowLength s e * Real.sin (get_line_angle s e - Real.pi / 6)⟩
      ∧ arrowWingPoint2 s e
        = ⟨e.x - arrowLength s e * Real.cos (get_line_angle s e + Real.pi / 6),
           e.y - arrowLength s e * Real.sin (get_line_angle s e + Real.pi / 6)⟩)
    ∧ arrowLength ⟨0, 0⟩ ⟨100, 0⟩ = 10
    ∧ arrowWingPoint1 ⟨0, 0⟩ ⟨100, 0⟩ = ⟨100 - 5 * Real.sqrt 3, 5⟩
    ∧ arrowWingPoint2 ⟨0, 0⟩ ⟨100, 0⟩ = ⟨100 - 5 * Real.sqrt 3, -5⟩
    ∧ get_line_angle ⟨0, 0⟩ ⟨-100, 0⟩ = 0 := by
  have hlen : arrowLength ⟨0, 0⟩ ⟨100, 0⟩ = 10 := by
    have hdist : ((⟨100, 0⟩ : Point) - ⟨0, 0⟩).dist = 100 := by
      simp only [Point.sub_def, Point.dist]
      norm_num
      rw [show (10000 : ℝ) = 100 ^ 2 by norm_num,
        Real.sqrt_sq (by norm_num : (0 : ℝ) ≤ 100)]
    simp [arrowLength, arrowheadFraction, hdist]
    norm_num
  have hangle : get_line_angle ⟨0, 0⟩ ⟨100, 0⟩ = 0 := by
    simp [get_line_angle, Point.sub_def]
  refine ⟨fun s e _hne => ⟨?_, rfl, ?_, ?_⟩, hlen, ?_, ?_, ?_⟩
  · simp [arrowLength, arrowheadFraction, mul_comm]
  · simp only [arrowWingPoint1, arrow_x1, arrow_y1, arrowheadAperture, Point.mk.injEq]
    constructor <;> ring
  · simp only [arrowWingPoint2, arrow_x2, arrow_y2, arrowheadAperture, Point.mk.injEq]
    constructor <;> ring
  · simp only [arrowWingPoint1, arrow_x1, arrow_y1, arrowheadAperture, hangle, hlen,
      Point.mk.injEq]
    constructor
    · rw [show (0 : ℝ) - Real.pi / 6 = -(Real.pi / 6) by ring, Real.cos_neg,
        Real.cos_pi_div_six]
      ring
    · rw [show (0 : ℝ) - Real.pi / 6 = -(Real.pi / 6) by ring, Real.sin_neg,
        Real.sin_pi_div_six]
      norm_num
  · simp only [arrowWingPoint2, arrow_x2, arrow_y2, arrowheadAperture, hangle, hlen,
      Point.mk.injEq]
    constructor
    · rw [show (0 : ℝ) + Real.pi / 6 = Real.pi / 6 by ring, Real.cos_pi_div_six]
      ring
    · rw [show (0 : ℝ) + Real.pi / 6 = Real.pi / 6 by ring, Real.sin_pi_div_six]
      norm_num
  · simp [get_line_angle, Point.sub_def]

/-- C4 witness: the concrete shaft (0,0)→(100,0) is admissible (its ends
differ) and its arrowhead length is one tenth of its shaft length. -/
theorem c4_witness :
    (⟨0, 0⟩ : Point) ≠ ⟨100, 0⟩
    ∧ arrowLength ⟨0, 0⟩ ⟨100, 0⟩ = 0.1 * ((⟨100, 0⟩ : Point) - ⟨0, 0⟩).dist := by
  have hne : (⟨0, 0⟩ : Point) ≠ ⟨100, 0⟩ := by
    intro h
    have hx := congrArg Point.x h
    norm_num at hx
  exact ⟨hne, (c4_arrow_geometry.1 ⟨0, 0⟩ ⟨100, 0⟩ hne).1⟩

end Kcshot
